import Mathlib

/-!
Verification of the astarte-device-sdk core against its specification.

The definitions below are a shallow embedding of the Rust sources:

* `astarte-interfaces/src/schema.rs` — the JSON-level `Mapping` record and the
  resolution of retention / database-retention policies.
* `astarte-interfaces/src/mapping/datastream/individual.rs` and `object.rs` —
  conversion of the JSON mapping to the in-memory mapping types.
* `src/client/property.rs` — the property publish / unset / load engine.
* `src/types/uuid.rs` — UUID conversions to and from Astarte values.

Rust `Duration` values are modelled as a number of whole seconds (`Nat`),
machine integers as `Int` (the code only compares and converts them, never
overflows), and Rust `String`s that are inspected character by character as
`List Char`.  Fallible Rust functions returning `Result` are modelled with
`Except`.

Parts of the repository that the sources reference but that are not part of
the extracted core (the endpoint parser, the semantic `Retention` /
`DatabaseRetention` sum types, the value taxonomy `AstarteData`, the property
store contract and the `uuid` crate) are modelled from the specification; each
such definition carries a doc comment starting with `Modelled from the spec:`.
-/

/-! ## Schema level types (`astarte-interfaces/src/schema.rs`) -/

/-- Type of a mapping (`schema.rs`, `MappingType`). -/
inductive MappingType
  | double
  | integer
  | boolean
  | longinteger
  | string
  | binaryblob
  | datetime
  | doublearray
  | integerarray
  | booleanarray
  | longintegerarray
  | stringarray
  | binaryblobarray
  | datetimearray
  deriving DecidableEq, Repr

/-- Reliability of a data stream (`schema.rs`, `Reliability`); default is
`unreliable`. -/
inductive Reliability
  | unreliable
  | guaranteed
  | unique
  deriving DecidableEq, Repr

instance : Inhabited Reliability := ⟨.unreliable⟩

/-- JSON-level retention field (`schema.rs`, `Retention`); default is
`discard`. -/
inductive SchemaRetention
  | discard
  | volatile
  | stored
  deriving DecidableEq, Repr

instance : Inhabited SchemaRetention := ⟨.discard⟩

/-- JSON-level database retention policy (`schema.rs`,
`DatabaseRetentionPolicy`); default is `noTtl`. -/
inductive DatabaseRetentionPolicy
  | noTtl
  | useTtl
  deriving DecidableEq, Repr

instance : Inhabited DatabaseRetentionPolicy := ⟨.noTtl⟩

/-- Ownership of an interface (`schema.rs`, `Ownership`). -/
inductive Ownership
  | Device
  | Server
  deriving DecidableEq, Repr

/-- Modelled from the spec: the semantic retention union
(`interface::Retention`, §3 of the spec): `Discard | Volatile{expiry?} |
Stored{expiry?}` where the optional expiry is a positive duration in
seconds. -/
inductive Retention
  | discard
  | volatile (expiry : Option Nat)
  | stored (expiry : Option Nat)
  deriving DecidableEq, Repr

/-- Modelled from the spec: the semantic database retention
(`interface::DatabaseRetention`, §3 of the spec): `NoTtl | UseTtl{ttl}` with
the ttl a duration in seconds. -/
inductive DatabaseRetention
  | noTtl
  | useTtl (ttl : Nat)
  deriving DecidableEq, Repr

/-- Errors of the schema validation (`schema.rs`, `SchemaError`). -/
inductive SchemaError
  | NegativeExpiry (v : Int)
  | NegativeDatabaseRetentionTtl (v : Int)
  | DatabaseRetentionTtlTooLow (v : Nat)
  | MissingDatabaseRetentionTtl
  deriving DecidableEq, Repr

/-- JSON-level mapping record (`schema.rs`, `Mapping<T>`); string fields are
modelled as `List Char`. -/
structure Mapping where
  endpoint : List Char
  mapping_type : MappingType
  reliability : Option Reliability
  explicit_timestamp : Option Bool
  retention : Option SchemaRetention
  expiry : Option Int
  database_retention_policy : Option DatabaseRetentionPolicy
  database_retention_ttl : Option Int
  allow_unset : Option Bool
  description : Option (List Char)
  doc : Option (List Char)
  deriving DecidableEq, Repr

/-- Expiry of the data stream (`schema.rs`, `Mapping::expiry_as_duration`).
`u64::try_from` on an `i64` succeeds exactly on non-negative values. -/
def Mapping.expiry_as_duration (m : Mapping) : Except SchemaError (Option Nat) :=
  match m.expiry with
  | none => .ok none
  | some e =>
      if e = 0 then .ok none
      else if e < 0 then .error (.NegativeExpiry e)
      else .ok (some e.toNat)

/-- Semantic retention of the data stream (`schema.rs`,
`Mapping::retention_with_expiry`).  With `Discard` the expiry field is only
logged and dropped. -/
def Mapping.retention_with_expiry (m : Mapping) : Except SchemaError Retention :=
  match m.retention.getD default with
  | .discard => .ok .discard
  | .volatile => m.expiry_as_duration.map .volatile
  | .stored => m.expiry_as_duration.map .stored

/-- Database retention ttl of the data stream (`schema.rs`,
`Mapping::database_retention_ttl_as_duration`). -/
def Mapping.database_retention_ttl_as_duration (m : Mapping) :
    Except SchemaError (Option Nat) :=
  match m.database_retention_ttl with
  | none => .ok none
  | some ttl =>
      if ttl < 0 then .error (.NegativeDatabaseRetentionTtl ttl)
      else if ttl.toNat < 60 then .error (.DatabaseRetentionTtlTooLow ttl.toNat)
      else .ok (some ttl.toNat)

/-- Database retention of the data stream (`schema.rs`,
`Mapping::database_retention_with_ttl`).  With `NoTtl` the ttl field is only
logged and dropped. -/
def Mapping.database_retention_with_ttl (m : Mapping) :
    Except SchemaError DatabaseRetention :=
  match m.database_retention_policy.getD default with
  | .noTtl => .ok .noTtl
  | .useTtl =>
      match m.database_retention_ttl_as_duration with
      | .error e => .error e
      | .ok none => .error .MissingDatabaseRetentionTtl
      | .ok (some ttl) => .ok (.useTtl ttl)

/-! ## Endpoint patterns

The endpoint parser lives in `astarte-interfaces/src/mapping/endpoint.rs`,
which is not part of the extracted core; it is modelled from §3 and §4.1 of
the spec. -/

/-- Modelled from the spec: characters allowed in a literal level
(`[A-Za-z0-9_\-]`). -/
def isLitChar (c : Char) : Bool := c.isAlphanum || c == '_' || c == '-'

/-- Modelled from the spec: characters allowed in a parameter identifier. -/
def isIdentChar (c : Char) : Bool := c.isAlphanum || c == '_'

/-- Modelled from the spec: a level of an endpoint pattern is either a literal
or a parameter `%{ident}`. -/
inductive Level
  | literal (s : List Char)
  | parameter (s : List Char)
  deriving DecidableEq, Repr

/-- Modelled from the spec: the characters a level was parsed from. -/
def levelChars : Level → List Char
  | .literal s => s
  | .parameter s => '%' :: '{' :: (s ++ ['}'])

/-- Modelled from the spec: parses the identifier of a parameter level up to
the closing brace, which must end the level. -/
def parseParamBody : List Char → Option (List Char)
  | [] => none
  | c :: cs =>
      if c = '}' then (if cs = [] then some [] else none)
      else if isIdentChar c then (parseParamBody cs).map (c :: ·) else none

/-- Modelled from the spec: parses a literal level; it must be a non-empty
run of literal characters not starting with a dash. -/
def parseLiteral (cs : List Char) : Option Level :=
  match cs with
  | [] => none
  | c :: rest =>
      if c = '-' then none
      else if (c :: rest).all isLitChar then some (.literal (c :: rest)) else none

/-- Modelled from the spec: parses a single level, either a parameter
`%{ident}` with a non-empty identifier or a literal. -/
def parseLevel : List Char → Option Level
  | '%' :: '{' :: rest =>
      (match parseParamBody rest with
        | some body => if body = [] then none else some (.parameter body)
        | none => none)
  | cs => parseLiteral cs

/-- Splits a character list on `/`, keeping empty components. -/
def splitSlash : List Char → List (List Char)
  | [] => [[]]
  | c :: cs =>
      if c = '/' then [] :: splitSlash cs
      else
        match splitSlash cs with
        | [] => [[c]]
        | p :: ps => (c :: p) :: ps

/-- Joins components with `/`; the inverse of `splitSlash`. -/
def joinSlash : List (List Char) → List Char
  | [] => []
  | [p] => p
  | p :: ps => p ++ '/' :: joinSlash ps

/-- Modelled from the spec: parses all levels of an endpoint. -/
def parseLevels : List (List Char) → Option (List Level)
  | [] => some []
  | p :: ps =>
      match parseLevel p with
      | some l => (parseLevels ps).map (l :: ·)
      | none => none

/-- Modelled from the spec: the identifiers of the parameter levels. -/
def paramIdents (ls : List Level) : List (List Char) :=
  ls.filterMap fun l => match l with | .parameter s => some s | .literal _ => none

/-- Modelled from the spec: the endpoint pattern parser (§4.1): an absolute,
slash-separated, non-empty path whose levels are literals or parameters and
whose parameter identifiers are pairwise distinct; rejects an empty path, a
missing leading slash, empty levels and malformed levels. -/
def Endpoint.parse (cs : List Char) : Option (List Level) :=
  match cs with
  | '/' :: rest =>
      (match parseLevels (splitSlash rest) with
        | some ls => if (paramIdents ls).Nodup then some ls else none
        | none => none)
  | _ => none

/-- Modelled from the spec: `Display` of an endpoint
(`Endpoint::to_string`). -/
def Endpoint.toChars (ls : List Level) : List Char :=
  '/' :: joinSlash (ls.map levelChars)

/-- Modelled from the spec: number of levels of an endpoint
(`Endpoint::len`). -/
def Endpoint.levelsLen (ls : List Level) : Nat := ls.length

/-! ## Datastream mappings
(`astarte-interfaces/src/mapping/datastream/individual.rs` and `object.rs`) -/

/-- Modelled from the spec: the expiry of a semantic retention as the
`expiry` JSON field (`Retention::as_expiry_seconds`): `Discard` carries no
expiry, the other policies serialize their expiry in seconds. -/
def Retention.as_expiry_seconds : Retention → Option Int
  | .discard => none
  | .volatile e => e.map (fun n : Nat => (n : Int))
  | .stored e => e.map (fun n : Nat => (n : Int))

/-- Modelled from the spec: the JSON-level tag of a semantic retention
(`From<interface::Retention> for schema::Retention`). -/
def Retention.toSchema : Retention → SchemaRetention
  | .discard => .discard
  | .volatile _ => .volatile
  | .stored _ => .stored

/-- Modelled from the spec: the ttl of a semantic database retention as the
`database_retention_ttl` JSON field (`DatabaseRetention::as_ttl_secs`). -/
def DatabaseRetention.as_ttl_secs : DatabaseRetention → Option Int
  | .noTtl => none
  | .useTtl ttl => some (ttl : Int)

/-- Modelled from the spec: the JSON-level tag of a semantic database
retention (`From<interface::DatabaseRetention> for
DatabaseRetentionPolicy`). -/
def DatabaseRetention.toPolicy : DatabaseRetention → DatabaseRetentionPolicy
  | .noTtl => .noTtl
  | .useTtl _ => .useTtl

/-- Errors of the interface mappings (`mapping/mod.rs`, `MappingError`); the
wrapped `EndpointError` carries no structure here because the endpoint parser
is modelled with `Option`. -/
inductive MappingError
  | Empty
  | TooMany (n : Nat)
  | Duplicated (endpoint : List Char)
  | EndpointErr
  | TooShortForObject (endpoint : List Char)
  deriving DecidableEq, Repr

/-- Errors of the astarte-interfaces crate (`error.rs` is not part of the
extracted core): the variants reachable from the mapping conversions. -/
inductive InterfacesError
  | EndpointErr
  | Schema (e : SchemaError)
  deriving DecidableEq, Repr

/-- In-memory mapping of a datastream interface with individual aggregation
(`individual.rs`, `DatastreamIndividualMapping`; the `doc-fields` feature is
off, so description and doc are absent). -/
structure DatastreamIndividualMapping where
  endpoint : List Level
  mapping_type : MappingType
  reliability : Reliability
  retention : Retention
  database_retention : DatabaseRetention
  explicit_timestamp : Bool
  deriving DecidableEq, Repr

/-- Conversion of a JSON-level mapping to the in-memory individual datastream
mapping (`individual.rs`, `TryFrom<Mapping<T>> for
DatastreamIndividualMapping`).  The `allow_unset` field is only logged and
never read. -/
def DatastreamIndividualMapping.tryFrom (m : Mapping) :
    Except InterfacesError DatastreamIndividualMapping :=
  match Endpoint.parse m.endpoint with
  | none => .error .EndpointErr
  | some endpoint =>
      match m.retention_with_expiry with
      | .error e => .error (.Schema e)
      | .ok retention =>
          match m.database_retention_with_ttl with
          | .error e => .error (.Schema e)
          | .ok database_retention =>
              .ok { endpoint
                    reliability := m.reliability.getD default
                    retention
                    database_retention
                    explicit_timestamp := m.explicit_timestamp.getD false
                    mapping_type := m.mapping_type }

/-- Conversion of the in-memory individual datastream mapping back to the
JSON-level mapping (`individual.rs`, `From<&DatastreamIndividualMapping> for
Mapping<Cow<str>>`). -/
def DatastreamIndividualMapping.toMapping (v : DatastreamIndividualMapping) :
    Mapping where
  endpoint := Endpoint.toChars v.endpoint
  mapping_type := v.mapping_type
  reliability := some v.reliability
  explicit_timestamp := some v.explicit_timestamp
  retention := some v.retention.toSchema
  expiry := v.retention.as_expiry_seconds
  database_retention_policy := some v.database_retention.toPolicy
  database_retention_ttl := v.database_retention.as_ttl_secs
  allow_unset := none
  description := none
  doc := none

/-- In-memory mapping of a datastream interface with object aggregation
(`object.rs`, `DatastreamObjectMapping`; `doc-fields` off). -/
structure DatastreamObjectMapping where
  endpoint : List Level
  mapping_type : MappingType
  deriving DecidableEq, Repr

/-- Conversion of a JSON-level mapping to the in-memory object datastream
mapping (`object.rs`, `TryFrom<Mapping<T>> for DatastreamObjectMapping`):
after parsing, the endpoint must have at least two levels. -/
def DatastreamObjectMapping.tryFrom (m : Mapping) :
    Except MappingError DatastreamObjectMapping :=
  match Endpoint.parse m.endpoint with
  | none => .error .EndpointErr
  | some endpoint =>
      if Endpoint.levelsLen endpoint < 2 then
        .error (.TooShortForObject (Endpoint.toChars endpoint))
      else
        .ok { endpoint, mapping_type := m.mapping_type }

/-! ## Value taxonomy, property store and the client property engine
(`src/client/property.rs`) -/

/-- Modelled from the spec: the Astarte value taxonomy (§3 of the spec,
`AstarteData` / `AstarteType` in the sources).  Finite IEEE doubles are
modelled as rationals: two finite doubles are equal exactly when the
rationals they denote are (`0.0` and `-0.0` both denote `0`). -/
inductive AstarteData
  | double (v : ℚ)
  | integer (v : Int)
  | boolean (v : Bool)
  | longinteger (v : Int)
  | string (v : List Char)
  | binaryblob (v : List Nat)
  | datetime (v : Int)
  | doublearray (v : List ℚ)
  | integerarray (v : List Int)
  | booleanarray (v : List Bool)
  | longintegerarray (v : List Int)
  | stringarray (v : List (List Char))
  | binaryblobarray (v : List (List Nat))
  | datetimearray (v : List Int)
  deriving DecidableEq, Repr

/-- Modelled from the spec: the kind of a value (the `PartialEq<MappingType>`
comparison of the sources compares only kinds, with no implicit
coercions). -/
def AstarteData.typeOf : AstarteData → MappingType
  | .double _ => .double
  | .integer _ => .integer
  | .boolean _ => .boolean
  | .longinteger _ => .longinteger
  | .string _ => .string
  | .binaryblob _ => .binaryblob
  | .datetime _ => .datetime
  | .doublearray _ => .doublearray
  | .integerarray _ => .integerarray
  | .booleanarray _ => .booleanarray
  | .longintegerarray _ => .longintegerarray
  | .stringarray _ => .stringarray
  | .binaryblobarray _ => .binaryblobarray
  | .datetimearray _ => .datetimearray

/-- Key of a stored property: interface name and path. -/
abbrev PropKey := List Char × List Char

/-- Modelled from the spec: a row of the property store — either a stored
value with its recorded interface major version and ownership, or an unset
marker (§4.4: after `unset`, `load` returns `None`). -/
inductive Entry
  | val (value : AstarteData) (major : Int) (owner : Ownership)
  | unsetMarker
  deriving DecidableEq, Repr

/-- Modelled from the spec: the property store state, at most one row per
key. -/
abbrev Store := List (PropKey × Entry)

/-- Removes the row of a key. -/
def Store.deleteKey (s : Store) (k : PropKey) : Store :=
  s.filter fun e => !decide (e.1 = k)

/-- The row stored under a key. -/
def Store.lookupKey (s : Store) (k : PropKey) : Option Entry :=
  (s.find? fun e => decide (e.1 = k)).map Prod.snd

/-- Modelled from the spec: `PropertyStore::load` (§4.4): returns the stored
value iff its recorded major equals the expected one; a stale row (major
mismatch) yields `none` and the row is deleted; an unset marker or a missing
row yields `none`. -/
def Store.load_prop (s : Store) (k : PropKey) (major : Int) :
    Option AstarteData × Store :=
  match s.lookupKey k with
  | some (.val v maj _) =>
      if maj = major then (some v, s) else (none, s.deleteKey k)
  | some .unsetMarker => (none, s)
  | none => (none, s)

/-- Modelled from the spec: `PropertyStore::store` (§4.4): upserts by key. -/
def Store.store_prop (s : Store) (k : PropKey) (v : AstarteData) (major : Int)
    (o : Ownership) : Store :=
  (k, .val v major o) :: s.deleteKey k

/-- Modelled from the spec: `PropertyStore::unset` (§4.4): marks the value as
unset; a subsequent `load` returns `none`. -/
def Store.unset_prop (s : Store) (k : PropKey) : Store :=
  (k, .unsetMarker) :: s.deleteKey k

/-- Modelled from the spec: `PropertyStore::delete` (§4.4): hard removal. -/
def Store.delete_prop (s : Store) (k : PropKey) : Store := s.deleteKey k

/-- Observable side effects of the client property engine: store writes and
on-wire emissions, in program order. -/
inductive Event
  | storedProp (k : PropKey) (v : AstarteData)
  | emitted (k : PropKey) (v : AstarteData)
  | unsetPersisted (k : PropKey)
  | unsetEmitted (k : PropKey)
  | deleted (k : PropKey)
  deriving DecidableEq, Repr

/-- True only on on-wire property emissions. -/
def isEmit : Event → Bool
  | .emitted _ _ => true
  | _ => false

/-- Number of on-wire property emissions in a trace. -/
def countEmits (evs : List Event) : Nat := (evs.filter isEmit).length

/-- Modelled from the spec: the data of a resolved property mapping reference
(`MappingRef<PropertyRef>`) that the client property engine reads: interface
name, path, interface major version, mapping type and the `allow_unset`
flag. -/
structure PropMappingRef where
  interface : List Char
  path : List Char
  version_major : Int
  mapping_type : MappingType
  allow_unset : Bool
  deriving DecidableEq, Repr

/-- Store key of a property mapping reference. -/
def PropMappingRef.key (m : PropMappingRef) : PropKey :=
  (m.interface, m.path)

/-- Errors of the client property engine reachable from the embedded
functions. -/
inductive ClientError
  | typeMismatch
  | unsetNotAllowed
  deriving DecidableEq, Repr

/-- Modelled from the spec: `ValidatedProperty::validate` (§4.5): the value
kind must equal the mapping type. -/
def ValidatedProperty.validate (m : PropMappingRef) (d : AstarteData) :
    Except ClientError AstarteData :=
  if d.typeOf = m.mapping_type then .ok d else .error .typeMismatch

/-- Modelled from the spec: `ValidatedUnset::validate` (§4.5): unset is only
allowed when the mapping allows it. -/
def ValidatedUnset.validate (m : PropMappingRef) : Except ClientError Unit :=
  if m.allow_unset then .ok () else .error .unsetNotAllowed

/-- Embedding of `try_load_prop` (`property.rs`): load the stored value for
the mapping's key and expected major; on a kind mismatch with the live
mapping delete the row and treat the property as absent. -/
def try_load_prop (s : Store) (m : PropMappingRef) :
    Store × List Event × Option AstarteData :=
  match Store.load_prop s m.key m.version_major with
  | (some value, s1) =>
      if value.typeOf ≠ m.mapping_type then
        (Store.delete_prop s1 m.key, [.deleted m.key], none)
      else (s1, [], some value)
  | (none, s1) => (s1, [], none)

/-- Embedding of `send_property` (`property.rs`): validate, return success
with no effect when the stored value equals the new one, otherwise persist
the value and then emit it only when connected. -/
def send_property (s : Store) (connected : Bool) (m : PropMappingRef)
    (data : AstarteData) : Except ClientError (Store × List Event) :=
  match ValidatedProperty.validate m data with
  | .error e => .error e
  | .ok d =>
      let t := try_load_prop s m
      if t.2.2 = some d then .ok (t.1, t.2.1)
      else
        let evs := t.2.1 ++ [.storedProp m.key d]
        let s2 := Store.store_prop t.1 m.key d m.version_major .Device
        if connected then .ok (s2, evs ++ [.emitted m.key d])
        else .ok (s2, evs)

/-- Embedding of `unset_prop` (`property.rs`): validate, persist the unset
marker, then — only when connected — emit the unset frame and hard-delete
the stored row. -/
def unset_prop (s : Store) (connected : Bool) (m : PropMappingRef) :
    Except ClientError (Store × List Event) :=
  match ValidatedUnset.validate m with
  | .error e => .error e
  | .ok _ =>
      let s1 := Store.unset_prop s m.key
      if connected then
        .ok (Store.delete_prop s1 m.key,
          [.unsetPersisted m.key, .unsetEmitted m.key, .deleted m.key])
      else .ok (s1, [.unsetPersisted m.key])

/-! ## UUID values (`src/types/uuid.rs`)

The `uuid` crate and `src/types/mod.rs` (`AstarteData` conversions,
`TypeError`) are external to the extracted core; the crate's 16-byte UUID
value, its hyphenated display and its string parser are modelled below. -/

/-- Modelled from the spec: a UUID of the external `uuid` crate — exactly 16
bytes. -/
def Uuid := { bs : List Nat // bs.length = 16 ∧ ∀ b ∈ bs, b < 256 }

instance : DecidableEq Uuid := Subtype.instDecidableEq

/-- Conversion error of the value taxonomy (`TypeError::Conversion` with its
context string; `src/types/mod.rs` is not part of the extracted core). -/
inductive TypeError
  | Conversion (ctx : String)
  deriving DecidableEq, Repr

/-- Display name of a mapping type (`schema.rs`, `Display for
MappingType`). -/
def MappingType.display : MappingType → String
  | .double => "double"
  | .integer => "integer"
  | .boolean => "boolean"
  | .longinteger => "longinteger"
  | .string => "string"
  | .binaryblob => "binaryblob"
  | .datetime => "datetime"
  | .doublearray => "doublearray"
  | .integerarray => "integerarray"
  | .booleanarray => "booleanarray"
  | .longintegerarray => "longintegerarray"
  | .stringarray => "stringarray"
  | .binaryblobarray => "binaryblobarray"
  | .datetimearray => "datetimearray"

/-- Modelled from the spec: the display name of a value's kind
(`AstarteData::display_type`). -/
def AstarteData.display_type (d : AstarteData) : String := d.typeOf.display

/-- A UUID carried as a binary Astarte value (`uuid.rs`, `BinUuid`). -/
structure BinUuid where
  val : Uuid
  deriving DecidableEq

/-- A UUID carried as a dashed-string Astarte value (`uuid.rs`,
`StrUuid`). -/
structure StrUuid where
  val : Uuid
  deriving DecidableEq

/-- Modelled from the spec: lowercase hex digit of a nibble. -/
def hexDigit (n : Nat) : Char :=
  if n < 10 then Char.ofNat ('0'.toNat + n)
  else Char.ofNat ('a'.toNat + (n - 10))

/-- Two lowercase hex digits of a byte. -/
def byteHex (b : Nat) : List Char := [hexDigit (b / 16), hexDigit (b % 16)]

/-- Hex digits of a byte list. -/
def bytesHex (bs : List Nat) : List Char := (bs.map byteHex).flatten

/-- Modelled from the spec: hyphenated lowercase display of a UUID (the
`uuid` crate's `Display` / `to_string`), in byte groups of 4-2-2-2-6. -/
def Uuid.toChars (u : Uuid) : List Char :=
  bytesHex (u.val.take 4)
    ++ ('-' :: (bytesHex ((u.val.drop 4).take 2)
    ++ ('-' :: (bytesHex (((u.val.drop 4).drop 2).take 2)
    ++ ('-' :: (bytesHex ((((u.val.drop 4).drop 2).drop 2).take 2)
    ++ ('-' :: bytesHex ((((u.val.drop 4).drop 2).drop 2).drop 2))))))))

/-- Modelled from the spec: value of a hex digit, either case (the `uuid`
crate's parser is case-insensitive). -/
def hexVal (c : Char) : Option Nat :=
  if '0' ≤ c ∧ c ≤ '9' then some (c.toNat - '0'.toNat)
  else if 'a' ≤ c ∧ c ≤ 'f' then some (c.toNat - 'a'.toNat + 10)
  else if 'A' ≤ c ∧ c ≤ 'F' then some (c.toNat - 'A'.toNat + 10)
  else none

/-- Parses one byte from two hex digits. -/
def parseByte : List Char → Option (Nat × List Char)
  | c1 :: c2 :: rest =>
      (match hexVal c1, hexVal c2 with
        | some hi, some lo => some (hi * 16 + lo, rest)
        | _, _ => none)
  | _ => none

/-- Parses `n` bytes from hex digits. -/
def parseBytes : Nat → List Char → Option (List Nat × List Char)
  | 0, cs => some ([], cs)
  | n + 1, cs =>
      match parseByte cs with
      | some (b, cs1) =>
          (match parseBytes n cs1 with
            | some (bs, cs2) => some (b :: bs, cs2)
            | none => none)
      | none => none

/-- Consumes a dash. -/
def expectDash : List Char → Option (List Char)
  | '-' :: cs => some cs
  | _ => none

/-- Modelled from the spec: the `uuid` crate's `Uuid::parse_str`, restricted
to the hyphenated format the crate itself prints (byte groups of 4-2-2-2-6
separated by dashes, hex digits of either case, nothing trailing). -/
def Uuid.parse (cs : List Char) : Option Uuid :=
  (parseBytes 4 cs).bind fun p1 =>
  (expectDash p1.2).bind fun r1 =>
  (parseBytes 2 r1).bind fun p2 =>
  (expectDash p2.2).bind fun r2 =>
  (parseBytes 2 r2).bind fun p3 =>
  (expectDash p3.2).bind fun r3 =>
  (parseBytes 2 r3).bind fun p4 =>
  (expectDash p4.2).bind fun r4 =>
  (parseBytes 6 r4).bind fun p5 =>
  if p5.2 = [] then
    (if h : (p1.1 ++ p2.1 ++ p3.1 ++ p4.1 ++ p5.1).length = 16
        ∧ ∀ b ∈ p1.1 ++ p2.1 ++ p3.1 ++ p4.1 ++ p5.1, b < 256
      then some ⟨p1.1 ++ p2.1 ++ p3.1 ++ p4.1 ++ p5.1, h⟩ else none)
  else none

/-- Embedding of `From<BinUuid> for AstarteData` (`uuid.rs`): the UUID's 16
bytes as a binary blob. -/
def AstarteData.ofBinUuid (b : BinUuid) : AstarteData :=
  .binaryblob b.val.val

/-- Embedding of `TryFrom<AstarteData> for BinUuid` (`uuid.rs`): only a
16-byte binary blob converts (the byte range is enforced by `u8` in Rust and
checked explicitly here). -/
def BinUuid.tryFrom (d : AstarteData) : Except TypeError BinUuid :=
  match d with
  | .binaryblob bs =>
      if h : bs.length = 16 ∧ ∀ b ∈ bs, b < 256 then .ok ⟨⟨bs, h⟩⟩
      else .error (.Conversion "couldn't parse binary UUID")
  | _ => .error (.Conversion ("from " ++ d.display_type ++ " into binary UUID"))

/-- Embedding of `PartialEq<BinUuid> for AstarteData` (`uuid.rs`): a binary
blob equal to the UUID's bytes. -/
def AstarteData.eqBinUuid (d : AstarteData) (b : BinUuid) : Bool :=
  match d with
  | .binaryblob v => v == b.val.val
  | _ => false

/-- Embedding of `From<StrUuid> for AstarteData` (`uuid.rs`): the dashed
string form. -/
def AstarteData.ofStrUuid (s : StrUuid) : AstarteData :=
  .string (Uuid.toChars s.val)

/-- Embedding of `TryFrom<AstarteData> for StrUuid` (`uuid.rs`): only a
string parsing as a UUID converts (the error context for a non-string value
says "binary UUID", as in the source). -/
def StrUuid.tryFrom (d : AstarteData) : Except TypeError StrUuid :=
  match d with
  | .string cs =>
      (match Uuid.parse cs with
        | some u => .ok ⟨u⟩
        | none => .error (.Conversion "couldn't parse string UUID"))
  | _ => .error (.Conversion ("from " ++ d.display_type ++ " into binary UUID"))

/-- Embedding of `PartialEq<StrUuid> for AstarteData` (`uuid.rs`): a string
that parses to the same UUID. -/
def AstarteData.eqStrUuid (d : AstarteData) (s : StrUuid) : Bool :=
  match d with
  | .string v =>
      (match Uuid.parse v with
        | some u => u == s.val
        | none => false)
  | _ => false

/-! ## Concrete example inputs -/

/-- A minimal JSON-level mapping, used as the base of the concrete examples. -/
def exampleMapping : Mapping where
  endpoint := ['/', 'v']
  mapping_type := .integer
  reliability := none
  explicit_timestamp := none
  retention := none
  expiry := none
  database_retention_policy := none
  database_retention_ttl := none
  allow_unset := none
  description := none
  doc := none

/-- Mapping with policy `use_ttl` and ttl `60`. -/
def mappingUseTtl60 : Mapping :=
  { exampleMapping with
      database_retention_policy := some .useTtl
      database_retention_ttl := some 60 }

/-- Mapping with retention `discard` and a negative expiry. -/
def mappingDiscardNegativeExpiry : Mapping :=
  { exampleMapping with retention := some .discard, expiry := some (-1) }

/-- Mapping with retention `volatile` and a negative expiry. -/
def mappingVolatileNegativeExpiry : Mapping :=
  { exampleMapping with retention := some .volatile, expiry := some (-1) }

/-- Mapping with default retention and a positive expiry. -/
def mappingDefaultRetentionExpiry5 : Mapping :=
  { exampleMapping with expiry := some 5 }

/-- Mapping with the two-level endpoint `/a/b`. -/
def mappingTwoLevels : Mapping :=
  { exampleMapping with endpoint := ['/', 'a', '/', 'b'] }

/-- The in-memory individual datastream mapping `exampleMapping` converts
to. -/
def exampleIndividualMapping : DatastreamIndividualMapping where
  endpoint := [.literal ['v']]
  mapping_type := .integer
  reliability := .unreliable
  retention := .discard
  database_retention := .noTtl
  explicit_timestamp := false

/-- The all-zero UUID. -/
def exampleUuid : Uuid := ⟨List.replicate 16 0, by decide⟩

/-- A property mapping reference: interface `i`, path `/a`, major 1, integer
type, unset allowed. -/
def examplePropMapping : PropMappingRef where
  interface := ['i']
  path := ['/', 'a']
  version_major := 1
  mapping_type := .integer
  allow_unset := true

/-- A store holding a boolean under `examplePropMapping`'s key — a kind
mismatch with the mapping. -/
def exampleStoreMismatch : Store :=
  [((['i'], ['/', 'a']), .val (.boolean true) 1 .Device)]

/-! ## Theorems -/

/-- Claim C3: with policy `use_ttl` and ttl `t`, `database_retention_with_ttl`
resolves to `UseTtl` with `t` seconds iff `t ≥ 60`; `t ∈ [0, 60)` yields
`DatabaseRetentionTtlTooLow t`; `t < 0` yields
`NegativeDatabaseRetentionTtl t`; an absent ttl yields
`MissingDatabaseRetentionTtl`.  With policy `no_ttl` or an absent policy the
result is `NoTtl` for every ttl value. -/
theorem database_retention_with_ttl_spec (m : Mapping) :
    (m.database_retention_policy = some .useTtl →
      ((∀ t : Int, m.database_retention_ttl = some t →
          ((m.database_retention_with_ttl = .ok (.useTtl t.toNat) ↔ 60 ≤ t)
            ∧ (0 ≤ t → t < 60 →
                m.database_retention_with_ttl =
                  .error (.DatabaseRetentionTtlTooLow t.toNat))
            ∧ (t < 0 →
                m.database_retention_with_ttl =
                  .error (.NegativeDatabaseRetentionTtl t))))
        ∧ (m.database_retention_ttl = none →
            m.database_retention_with_ttl = .error .MissingDatabaseRetentionTtl)))
    ∧ (m.database_retention_policy.getD default = .noTtl →
        m.database_retention_with_ttl = .ok .noTtl) := by
  constructor
  · intro hp
    constructor
    · intro t ht
      simp only [Mapping.database_retention_with_ttl,
        Mapping.database_retention_ttl_as_duration, hp, ht, Option.getD_some]
      split_ifs with h1 h2
      · refine ⟨?_, fun h _ => absurd h (by omega), fun _ => rfl⟩
        constructor
        · intro h
          exact absurd h (by simp)
        · intro h
          exact absurd h (by omega)
      · refine ⟨?_, fun _ _ => rfl, fun h => absurd h h1⟩
        constructor
        · intro h
          exact absurd h (by simp)
        · intro h
          exact absurd h (by omega)
      · refine ⟨?_, fun _ h => absurd h (by omega), fun h => absurd h h1⟩
        constructor
        · intro _
          omega
        · intro _
          rfl
    · intro ht
      simp [Mapping.database_retention_with_ttl,
        Mapping.database_retention_ttl_as_duration, hp, ht]
  · intro hp
    simp [Mapping.database_retention_with_ttl, hp]

/-- Witness for claim C3 at a concrete input: policy `use_ttl` with ttl `60`
resolves to `UseTtl` with 60 seconds. -/
theorem database_retention_with_ttl_spec_witness :
    mappingUseTtl60.database_retention_with_ttl = .ok (.useTtl 60) :=
  (((database_retention_with_ttl_spec mappingUseTtl60).1 rfl).1 60 rfl).1.mpr
    (by norm_num)

/-- Claim C4, counterexample: with retention `discard` and expiry `-1`,
`retention_with_expiry` succeeds with `Discard` instead of rejecting the
negative expiry with `NegativeExpiry (-1)` — the claim's universal rejection
of negative expiry fails for the `discard` policy. -/
theorem retention_with_expiry_negative_discard_counterexample :
    mappingDiscardNegativeExpiry.expiry = some (-1)
      ∧ mappingDiscardNegativeExpiry.retention = some .discard
      ∧ mappingDiscardNegativeExpiry.retention_with_expiry = .ok .discard
      ∧ mappingDiscardNegativeExpiry.retention_with_expiry
          ≠ .error (.NegativeExpiry (-1)) :=
  ⟨rfl, rfl, rfl, fun h => Except.noConfusion h⟩

/-- Claim C4 (amended): an expiry of `0` or an absent expiry resolves to no
expiry (the data never expires), a positive expiry `e` resolves to `e`
seconds, and a negative expiry is rejected with `NegativeExpiry` by
`expiry_as_duration` — hence by `retention_with_expiry` for the `volatile` and
`stored` retention policies (with `discard` the expiry is ignored). -/
theorem retention_with_expiry_amended (m : Mapping) :
    ((m.expiry = none ∨ m.expiry = some 0) → m.expiry_as_duration = .ok none)
    ∧ (∀ e : Int, m.expiry = some e → 0 < e →
        m.expiry_as_duration = .ok (some e.toNat))
    ∧ (∀ e : Int, m.expiry = some e → e < 0 →
        (m.expiry_as_duration = .error (.NegativeExpiry e)
          ∧ ((m.retention = some .volatile ∨ m.retention = some .stored) →
              m.retention_with_expiry = .error (.NegativeExpiry e)))) := by
  refine ⟨?_, ?_, ?_⟩
  · rintro (h | h) <;> simp [Mapping.expiry_as_duration, h]
  · intro e he h0
    simp only [Mapping.expiry_as_duration, he]
    rw [if_neg (by omega), if_neg (by omega)]
  · intro e he hneg
    have hdur : m.expiry_as_duration = .error (.NegativeExpiry e) := by
      simp only [Mapping.expiry_as_duration, he]
      rw [if_neg (by omega), if_pos hneg]
    refine ⟨hdur, ?_⟩
    rintro (h | h) <;>
      simp [Mapping.retention_with_expiry, h, hdur, Except.map]

/-- Witness for claim C4 (amended) at a concrete input: retention `volatile`
with expiry `-1` is rejected with `NegativeExpiry (-1)`. -/
theorem retention_with_expiry_amended_witness :
    mappingVolatileNegativeExpiry.retention_with_expiry
      = .error (.NegativeExpiry (-1)) :=
  (((retention_with_expiry_amended mappingVolatileNegativeExpiry).2.2
    (-1) rfl (by norm_num)).2 (Or.inl rfl))

/-- Claim C5: for every mapping whose retention field is `discard` or absent,
`retention_with_expiry` returns the semantic retention `Discard` (which
carries no expiry), whatever the expiry field holds. -/
theorem retention_with_expiry_discard (m : Mapping)
    (h : m.retention = none ∨ m.retention = some .discard) :
    m.retention_with_expiry = .ok .discard := by
  rcases h with h | h <;> simp [Mapping.retention_with_expiry, h]

/-- Witness for claim C5 at a concrete input: absent retention with a positive
expiry still resolves to `Discard`. -/
theorem retention_with_expiry_discard_witness :
    mappingDefaultRetentionExpiry5.retention_with_expiry = .ok .discard :=
  retention_with_expiry_discard mappingDefaultRetentionExpiry5 (Or.inl rfl)

theorem parseParamBody_sound (cs : List Char) (body : List Char)
    (h : parseParamBody cs = some body) : cs = body ++ ['}'] := by
  induction cs generalizing body with
  | nil => simp [parseParamBody] at h
  | cons c cs ih =>
    simp only [parseParamBody] at h
    split_ifs at h with h1 h2 h3
    · subst h1
      subst h2
      simp only [Option.some.injEq] at h
      subst h
      rfl
    · rcases Option.map_eq_some'.mp h with ⟨body', hb, rfl⟩
      rw [List.cons_append]
      rw [ih body' hb]

theorem parseLiteral_sound (cs : List Char) (l : Level)
    (h : parseLiteral cs = some l) : levelChars l = cs := by
  unfold parseLiteral at h
  split at h
  · exact absurd h (by simp)
  · split_ifs at h
    simp only [Option.some.injEq] at h
    subst h
    rfl

theorem parseLevel_sound (cs : List Char) (l : Level)
    (h : parseLevel cs = some l) : levelChars l = cs := by
  unfold parseLevel at h
  split at h
  · rename_i rest
    cases hpb : parseParamBody rest with
    | none => rw [hpb] at h; exact absurd h (by simp)
    | some body =>
      rw [hpb] at h
      simp only at h
      split_ifs at h
      simp only [Option.some.injEq] at h
      subst h
      simp only [levelChars, List.cons.injEq, true_and]
      exact (parseParamBody_sound rest body hpb).symm
  · exact parseLiteral_sound cs l h

theorem parseLevels_sound (ps : List (List Char)) (ls : List Level)
    (h : parseLevels ps = some ls) : ls.map levelChars = ps := by
  induction ps generalizing ls with
  | nil =>
    simp only [parseLevels, Option.some.injEq] at h
    subst h
    rfl
  | cons p ps ih =>
    simp only [parseLevels] at h
    cases hl : parseLevel p with
    | none => rw [hl] at h; exact absurd h (by simp)
    | some l =>
      rw [hl] at h
      rcases Option.map_eq_some'.mp h with ⟨ls', hls, rfl⟩
      simp only [List.map_cons, ih ls' hls, List.cons.injEq, and_true]
      exact parseLevel_sound p l hl

theorem splitSlash_ne_nil (cs : List Char) : splitSlash cs ≠ [] := by
  induction cs with
  | nil => simp [splitSlash]
  | cons c cs ih =>
    simp only [splitSlash]
    split_ifs
    · simp
    · split <;> simp

theorem joinSlash_splitSlash (cs : List Char) :
    joinSlash (splitSlash cs) = cs := by
  induction cs with
  | nil => rfl
  | cons c cs ih =>
    simp only [splitSlash]
    split_ifs with hc
    · subst hc
      cases hl : splitSlash cs with
      | nil => exact absurd hl (splitSlash_ne_nil cs)
      | cons p ps =>
        rw [hl] at ih
        show '/' :: joinSlash (p :: ps) = '/' :: cs
        rw [ih]
    · cases hl : splitSlash cs with
      | nil => exact absurd hl (splitSlash_ne_nil cs)
      | cons p ps =>
        rw [hl] at ih
        cases ps with
        | nil =>
          show c :: p = c :: cs
          simp only [joinSlash] at ih
          rw [ih]
        | cons q qs =>
          show (c :: p) ++ '/' :: joinSlash (q :: qs) = c :: cs
          simp only [joinSlash] at ih
          rw [List.cons_append, ih]

theorem endpoint_parse_toChars (cs : List Char) (ls : List Level)
    (h : Endpoint.parse cs = some ls) : Endpoint.toChars ls = cs := by
  unfold Endpoint.parse at h
  split at h
  · rename_i rest
    cases hp : parseLevels (splitSlash rest) with
    | none => rw [hp] at h; exact absurd h (by simp)
    | some ls' =>
      rw [hp] at h
      simp only at h
      split_ifs at h
      simp only [Option.some.injEq] at h
      subst h
      unfold Endpoint.toChars
      rw [parseLevels_sound _ _ hp, joinSlash_splitSlash]
  · exact absurd h (by simp)

theorem expiry_as_duration_pos (m : Mapping) (k : Nat)
    (h : m.expiry_as_duration = .ok (some k)) : 0 < k := by
  unfold Mapping.expiry_as_duration at h
  split at h
  · exact absurd h (by simp)
  · rename_i e _
    split_ifs at h with h1 h2
    · exact absurd h (by simp)
    · simp only [Except.ok.injEq, Option.some.injEq] at h
      omega

theorem database_ttl_as_duration_ge (m : Mapping) (t : Nat)
    (h : m.database_retention_ttl_as_duration = .ok (some t)) : 60 ≤ t := by
  unfold Mapping.database_retention_ttl_as_duration at h
  split at h
  · exact absurd h (by simp)
  · split_ifs at h with h1 h2
    simp only [Except.ok.injEq, Option.some.injEq] at h
    omega

theorem retention_roundtrip (m : Mapping) (r : Retention)
    (h : m.retention_with_expiry = .ok r) (m' : Mapping)
    (hr : m'.retention = some r.toSchema)
    (he : m'.expiry = r.as_expiry_seconds) :
    m'.retention_with_expiry = .ok r := by
  cases r with
  | discard => simp [Mapping.retention_with_expiry, hr, Retention.toSchema]
  | volatile e =>
    have hdur : m.expiry_as_duration = .ok e := by
      unfold Mapping.retention_with_expiry at h
      split at h
      · exact absurd h (by simp)
      · cases hd : m.expiry_as_duration with
        | error er => rw [hd] at h; exact absurd h (by simp [Except.map])
        | ok eo =>
          rw [hd] at h
          simp only [Except.map, Except.ok.injEq, Retention.volatile.injEq] at h
          rw [h]
      · cases hd : m.expiry_as_duration with
        | error er => rw [hd] at h; exact absurd h (by simp [Except.map])
        | ok eo => rw [hd] at h; exact absurd h (by simp [Except.map])
    have hdur' : m'.expiry_as_duration = .ok e := by
      cases e with
      | none =>
        simp only [Retention.as_expiry_seconds, Option.map_none'] at he
        simp [Mapping.expiry_as_duration, he]
      | some k =>
        have hk : 0 < k := expiry_as_duration_pos m k hdur
        simp only [Retention.as_expiry_seconds, Option.map_some'] at he
        simp only [Mapping.expiry_as_duration, he]
        rw [if_neg (by omega), if_neg (by omega)]
        simp
    simp only [Mapping.retention_with_expiry, hr, Retention.toSchema,
      Option.getD_some, hdur', Except.map]
  | stored e =>
    have hdur : m.expiry_as_duration = .ok e := by
      unfold Mapping.retention_with_expiry at h
      split at h
      · exact absurd h (by simp)
      · cases hd : m.expiry_as_duration with
        | error er => rw [hd] at h; exact absurd h (by simp [Except.map])
        | ok eo => rw [hd] at h; exact absurd h (by simp [Except.map])
      · cases hd : m.expiry_as_duration with
        | error er => rw [hd] at h; exact absurd h (by simp [Except.map])
        | ok eo =>
          rw [hd] at h
          simp only [Except.map, Except.ok.injEq, Retention.stored.injEq] at h
          rw [h]
    have hdur' : m'.expiry_as_duration = .ok e := by
      cases e with
      | none =>
        simp only [Retention.as_expiry_seconds, Option.map_none'] at he
        simp [Mapping.expiry_as_duration, he]
      | some k =>
        have hk : 0 < k := expiry_as_duration_pos m k hdur
        simp only [Retention.as_expiry_seconds, Option.map_some'] at he
        simp only [Mapping.expiry_as_duration, he]
        rw [if_neg (by omega), if_neg (by omega)]
        simp
    simp only [Mapping.retention_with_expiry, hr, Retention.toSchema,
      Option.getD_some, hdur', Except.map]

theorem database_retention_roundtrip (m : Mapping) (d : DatabaseRetention)
    (h : m.database_retention_with_ttl = .ok d) (m' : Mapping)
    (hp : m'.database_retention_policy = some d.toPolicy)
    (ht : m'.database_retention_ttl = d.as_ttl_secs) :
    m'.database_retention_with_ttl = .ok d := by
  cases d with
  | noTtl =>
    simp [Mapping.database_retention_with_ttl, hp, DatabaseRetention.toPolicy]
  | useTtl t =>
    have hdur : m.database_retention_ttl_as_duration = .ok (some t) := by
      unfold Mapping.database_retention_with_ttl at h
      split at h
      · exact absurd h (by simp)
      · cases hd : m.database_retention_ttl_as_duration with
        | error er => rw [hd] at h; exact absurd h (by simp)
        | ok eo =>
          rw [hd] at h
          cases eo with
          | none => exact absurd h (by simp)
          | some t' =>
            simp only [Except.ok.injEq, DatabaseRetention.useTtl.injEq] at h
            rw [h]
    have hge : 60 ≤ t := database_ttl_as_duration_ge m t hdur
    simp only [DatabaseRetention.as_ttl_secs] at ht
    simp only [Mapping.database_retention_with_ttl, hp,
      DatabaseRetention.toPolicy, Option.getD_some,
      Mapping.database_retention_ttl_as_duration, ht]
    rw [if_neg (by omega), if_neg (by omega)]
    simp

/-- Claim C6: converting a JSON-level mapping to the in-memory individual
datastream mapping and back yields a semantically equal mapping: the endpoint
string is preserved exactly, the mapping type is preserved, reliability and
explicit timestamp are preserved up to default elision, the resolved
retention/expiry and database retention/ttl semantics are identical (so the
normalizations — expiry 0 versus absent, dropped conflicting fields — are
preserved), and `allow_unset` is elided. -/
theorem datastream_individual_roundtrip (m : Mapping)
    (dm : DatastreamIndividualMapping)
    (h : DatastreamIndividualMapping.tryFrom m = .ok dm) :
    dm.toMapping.endpoint = m.endpoint
    ∧ dm.toMapping.mapping_type = m.mapping_type
    ∧ dm.toMapping.reliability.getD default = m.reliability.getD default
    ∧ dm.toMapping.explicit_timestamp.getD false
        = m.explicit_timestamp.getD false
    ∧ dm.toMapping.retention_with_expiry = m.retention_with_expiry
    ∧ dm.toMapping.database_retention_with_ttl = m.database_retention_with_ttl
    ∧ dm.toMapping.allow_unset = none := by
  unfold DatastreamIndividualMapping.tryFrom at h
  cases hep : Endpoint.parse m.endpoint with
  | none => rw [hep] at h; exact absurd h (by simp)
  | some ep =>
    rw [hep] at h
    cases hr : m.retention_with_expiry with
    | error e => rw [hr] at h; exact absurd h (by simp)
    | ok r =>
      rw [hr] at h
      cases hd : m.database_retention_with_ttl with
      | error e => rw [hd] at h; exact absurd h (by simp)
      | ok d =>
        rw [hd] at h
        simp only [Except.ok.injEq] at h
        subst h
        refine ⟨?_, rfl, rfl, rfl, ?_, ?_, rfl⟩
        · exact endpoint_parse_toChars _ _ hep
        · exact retention_roundtrip m r hr _ rfl rfl
        · exact database_retention_roundtrip m d hd _ rfl rfl

/-- Witness for claim C6 at a concrete input: the round trip of
`exampleMapping` preserves the endpoint string and the retention
semantics. -/
theorem datastream_individual_roundtrip_witness :
    exampleIndividualMapping.toMapping.endpoint = exampleMapping.endpoint
      ∧ exampleIndividualMapping.toMapping.retention_with_expiry
          = exampleMapping.retention_with_expiry :=
  ⟨(datastream_individual_roundtrip exampleMapping exampleIndividualMapping
      rfl).1,
   (datastream_individual_roundtrip exampleMapping exampleIndividualMapping
      rfl).2.2.2.2.1⟩

/-- Claim C8: for a mapping whose endpoint parses, the conversion to an
object datastream mapping fails with `TooShortForObject` carrying the
endpoint iff the parsed endpoint has fewer than two levels; otherwise it
succeeds with the parsed endpoint and the original mapping type. -/
theorem datastream_object_tryFrom_spec (m : Mapping) (ep : List Level)
    (h : Endpoint.parse m.endpoint = some ep) :
    (DatastreamObjectMapping.tryFrom m
        = .error (.TooShortForObject m.endpoint) ↔ Endpoint.levelsLen ep < 2)
    ∧ (2 ≤ Endpoint.levelsLen ep →
        DatastreamObjectMapping.tryFrom m = .ok ⟨ep, m.mapping_type⟩) := by
  have htf : DatastreamObjectMapping.tryFrom m =
      (if Endpoint.levelsLen ep < 2 then
        .error (.TooShortForObject (Endpoint.toChars ep))
      else .ok ⟨ep, m.mapping_type⟩) := by
    unfold DatastreamObjectMapping.tryFrom
    rw [h]
  rw [htf]
  by_cases hlen : Endpoint.levelsLen ep < 2
  · rw [if_pos hlen, endpoint_parse_toChars _ _ h]
    exact ⟨⟨fun _ => hlen, fun _ => rfl⟩, fun h2 => absurd hlen (by omega)⟩
  · rw [if_neg hlen]
    refine ⟨⟨fun hc => absurd hc (by simp), fun hlt => absurd hlt hlen⟩,
      fun _ => rfl⟩

/-- Witness for claim C8 at a concrete input: the two-level endpoint `/a/b`
converts successfully. -/
theorem datastream_object_tryFrom_spec_witness :
    DatastreamObjectMapping.tryFrom mappingTwoLevels
      = .ok ⟨[.literal ['a'], .literal ['b']], .integer⟩ :=
  (datastream_object_tryFrom_spec mappingTwoLevels
      [.literal ['a'], .literal ['b']] rfl).2 (by decide)

/-- Claim C9: the `allow_unset` field of a datastream mapping is ignored by
the conversion to the in-memory individual datastream mapping: with
`allow_unset` present (true or false) the conversion gives exactly the same
result as with the field absent — in particular it never fails because of
`allow_unset`. -/
theorem datastream_individual_allow_unset_ignored (m : Mapping) (b : Bool) :
    DatastreamIndividualMapping.tryFrom { m with allow_unset := some b }
      = DatastreamIndividualMapping.tryFrom { m with allow_unset := none } :=
  rfl

theorem lookupKey_deleteKey (s : Store) (k : PropKey) :
    (Store.deleteKey s k).lookupKey k = none := by
  unfold Store.deleteKey Store.lookupKey
  induction s with
  | nil => rfl
  | cons e s ih =>
    rw [List.filter_cons]
    by_cases he : e.1 = k
    · rw [if_neg (by simp [he])]
      exact ih
    · rw [if_pos (by simp [he])]
      rw [List.find?_cons_of_neg _ (by simp [he])]
      exact ih

theorem lookupKey_store_prop (s : Store) (k : PropKey) (v : AstarteData)
    (major : Int) (o : Ownership) :
    (Store.store_prop s k v major o).lookupKey k = some (.val v major o) := by
  unfold Store.store_prop Store.lookupKey
  rw [List.find?_cons_of_pos _ (by simp)]
  rfl

theorem lookupKey_unset_prop (s : Store) (k : PropKey) :
    (Store.unset_prop s k).lookupKey k = some .unsetMarker := by
  unfold Store.unset_prop Store.lookupKey
  rw [List.find?_cons_of_pos _ (by simp)]
  rfl

theorem send_property_already_stored (s : Store) (connected : Bool)
    (m : PropMappingRef) (d : AstarteData) (o : Ownership)
    (hty : d.typeOf = m.mapping_type)
    (hl : s.lookupKey m.key = some (.val d m.version_major o)) :
    send_property s connected m d = .ok (s, []) := by
  have hload : Store.load_prop s m.key m.version_major = (some d, s) := by
    simp [Store.load_prop, hl]
  have ht : try_load_prop s m = (s, [], some d) := by
    simp [try_load_prop, hload, hty]
  simp [send_property, ValidatedProperty.validate, hty, ht]

theorem send_property_fresh (s : Store) (connected : Bool)
    (m : PropMappingRef) (d : AstarteData) (hty : d.typeOf = m.mapping_type)
    (hne : ∀ o : Ownership,
      s.lookupKey m.key ≠ some (.val d m.version_major o)) :
    ∃ pre, (pre = [] ∨ pre = [.deleted m.key])
      ∧ ∃ s1, send_property s connected m d
          = .ok (Store.store_prop s1 m.key d m.version_major .Device,
              pre ++ .storedProp m.key d ::
                (if connected then [.emitted m.key d] else [])) := by
  cases hl : s.lookupKey m.key with
  | none =>
    have hload : Store.load_prop s m.key m.version_major = (none, s) := by
      simp [Store.load_prop, hl]
    have ht : try_load_prop s m = (s, [], none) := by
      simp [try_load_prop, hload]
    refine ⟨[], Or.inl rfl, s, ?_⟩
    cases connected <;>
      simp [send_property, ValidatedProperty.validate, hty, ht]
  | some entry =>
    cases entry with
    | unsetMarker =>
      have hload : Store.load_prop s m.key m.version_major = (none, s) := by
        simp [Store.load_prop, hl]
      have ht : try_load_prop s m = (s, [], none) := by
        simp [try_load_prop, hload]
      refine ⟨[], Or.inl rfl, s, ?_⟩
      cases connected <;>
        simp [send_property, ValidatedProperty.validate, hty, ht]
    | val v maj o =>
      by_cases hmaj : maj = m.version_major
      · subst hmaj
        have hload : Store.load_prop s m.key m.version_major = (some v, s) := by
          simp [Store.load_prop, hl]
        by_cases hvty : v.typeOf = m.mapping_type
        · have hvd : ¬(v = d) := by
            intro hh
            subst hh
            exact hne o hl
          have ht : try_load_prop s m = (s, [], some v) := by
            simp [try_load_prop, hload, hvty]
          refine ⟨[], Or.inl rfl, s, ?_⟩
          cases connected <;>
            simp [send_property, ValidatedProperty.validate, hty, ht, hvd]
        · have ht : try_load_prop s m
              = (Store.delete_prop s m.key, [.deleted m.key], none) := by
            simp [try_load_prop, hload, hvty]
          refine ⟨[.deleted m.key], Or.inr rfl, Store.delete_prop s m.key, ?_⟩
          cases connected <;>
            simp [send_property, ValidatedProperty.validate, hty, ht]
      · have hload : Store.load_prop s m.key m.version_major
            = (none, Store.deleteKey s m.key) := by
          simp [Store.load_prop, hl, hmaj]
        have ht : try_load_prop s m = (Store.deleteKey s m.key, [], none) := by
          simp [try_load_prop, hload]
        refine ⟨[], Or.inl rfl, Store.deleteKey s m.key, ?_⟩
        cases connected <;>
          simp [send_property, ValidatedProperty.validate, hty, ht]

/-- Claim C1: publishing a property whose stored value (with matching major
and kind) equals the new value returns success with no store write and no
emission; with a different or absent stored value the value is persisted
first (the store write precedes any emission in the trace) and then emitted
only when connected, the final store holding the new value; consequently
publishing the same value twice while connected yields exactly one on-wire
emission. -/
theorem send_property_spec (s : Store) (connected : Bool)
    (m : PropMappingRef) (d : AstarteData)
    (hty : d.typeOf = m.mapping_type) :
    ((∃ o, s.lookupKey m.key = some (.val d m.version_major o)) →
        send_property s connected m d = .ok (s, []))
    ∧ ((∀ o, s.lookupKey m.key ≠ some (.val d m.version_major o)) →
        ∃ s' pre,
          send_property s connected m d
            = .ok (s', pre ++ .storedProp m.key d ::
                (if connected then [.emitted m.key d] else []))
          ∧ (pre = [] ∨ pre = [.deleted m.key])
          ∧ s'.lookupKey m.key = some (.val d m.version_major .Device))
    ∧ ((∀ o, s.lookupKey m.key ≠ some (.val d m.version_major o)) →
        ∃ s1 evs1 evs2,
          send_property s true m d = .ok (s1, evs1)
          ∧ send_property s1 true m d = .ok (s1, evs2)
          ∧ countEmits (evs1 ++ evs2) = 1) := by
  refine ⟨?_, ?_, ?_⟩
  · rintro ⟨o, hl⟩
    exact send_property_already_stored s connected m d o hty hl
  · intro hne
    obtain ⟨pre, hpre, s1, heq⟩ := send_property_fresh s connected m d hty hne
    exact ⟨_, pre, heq, hpre, lookupKey_store_prop _ _ _ _ _⟩
  · intro hne
    obtain ⟨pre, hpre, s1, heq⟩ := send_property_fresh s true m d hty hne
    refine ⟨_, _, [], heq, ?_, ?_⟩
    · exact send_property_already_stored _ true m d .Device hty
        (lookupKey_store_prop _ _ _ _ _)
    · rcases hpre with rfl | rfl <;> simp [countEmits, isEmit]

/-- Witness for claim C1 at a concrete input: publishing integer `5` twice on
an empty store while connected emits exactly once. -/
theorem send_property_spec_witness :
    ∃ s1 evs1 evs2,
      send_property [] true examplePropMapping (.integer 5) = .ok (s1, evs1)
      ∧ send_property s1 true examplePropMapping (.integer 5) = .ok (s1, evs2)
      ∧ countEmits (evs1 ++ evs2) = 1 :=
  (send_property_spec [] true examplePropMapping (.integer 5) rfl).2.2
    (fun o h => by simp [Store.lookupKey] at h)

/-- Claim C2: unsetting a property on a mapping that allows it always first
persists the unset marker (also when disconnected, where nothing else
happens and the marker is visible in the store); when connected the unset
frame is emitted after the marker is persisted and the stored row is
hard-deleted last, so the trace order is
persisted-before-emitted-before-deleted. -/
theorem unset_prop_spec (s : Store) (connected : Bool) (m : PropMappingRef)
    (h : m.allow_unset = true) :
    ∃ s', unset_prop s connected m
        = .ok (s', .unsetPersisted m.key ::
            (if connected then [.unsetEmitted m.key, .deleted m.key] else []))
      ∧ (connected = false →
          s' = Store.unset_prop s m.key
            ∧ s'.lookupKey m.key = some .unsetMarker)
      ∧ (connected = true → s'.lookupKey m.key = none) := by
  cases connected with
  | true =>
    refine ⟨Store.delete_prop (Store.unset_prop s m.key) m.key, ?_, ?_, ?_⟩
    · simp [unset_prop, ValidatedUnset.validate, h]
    · intro hc
      simp at hc
    · intro _
      exact lookupKey_deleteKey _ _
  | false =>
    refine ⟨Store.unset_prop s m.key, ?_, ?_, ?_⟩
    · simp [unset_prop, ValidatedUnset.validate, h]
    · intro _
      exact ⟨rfl, lookupKey_unset_prop s m.key⟩
    · intro hc
      simp at hc

/-- Witness for claim C2 at a concrete input: unsetting on an empty store
while disconnected persists only the unset marker. -/
theorem unset_prop_spec_witness :
    ∃ s', unset_prop [] false examplePropMapping
        = .ok (s', .unsetPersisted examplePropMapping.key ::
            (if false then [.unsetEmitted examplePropMapping.key,
              .deleted examplePropMapping.key] else []))
      ∧ (false = false →
          s' = Store.unset_prop [] examplePropMapping.key
            ∧ s'.lookupKey examplePropMapping.key = some .unsetMarker)
      ∧ (false = true → s'.lookupKey examplePropMapping.key = none) :=
  unset_prop_spec [] false examplePropMapping rfl

/-- Claim C7: loading a stored property whose recorded major matches but
whose value kind differs from the live mapping's type deletes the stored row
(the key is absent afterwards) and returns `none`; when the kind matches the
stored value is returned unchanged and the store is untouched. -/
theorem try_load_prop_spec (s : Store) (m : PropMappingRef)
    (v : AstarteData) (o : Ownership)
    (hl : s.lookupKey m.key = some (.val v m.version_major o)) :
    (v.typeOf ≠ m.mapping_type →
        (try_load_prop s m
            = (Store.delete_prop s m.key, [.deleted m.key], none)
          ∧ (Store.delete_prop s m.key).lookupKey m.key = none))
    ∧ (v.typeOf = m.mapping_type → try_load_prop s m = (s, [], some v)) := by
  have hload : Store.load_prop s m.key m.version_major = (some v, s) := by
    simp [Store.load_prop, hl]
  constructor
  · intro hty
    refine ⟨?_, lookupKey_deleteKey s m.key⟩
    simp [try_load_prop, hload, hty]
  · intro hty
    simp [try_load_prop, hload, hty]

/-- Witness for claim C7 at a concrete input: a stored boolean under an
integer mapping is deleted and treated as absent. -/
theorem try_load_prop_spec_witness :
    (try_load_prop exampleStoreMismatch examplePropMapping
        = (Store.delete_prop exampleStoreMismatch examplePropMapping.key,
            [.deleted examplePropMapping.key], none)
      ∧ (Store.delete_prop exampleStoreMismatch
            examplePropMapping.key).lookupKey examplePropMapping.key = none) :=
  (try_load_prop_spec exampleStoreMismatch examplePropMapping
      (.boolean true) .Device rfl).1 (by decide)

theorem hexVal_hexDigit (n : Nat) (h : n < 16) : hexVal (hexDigit n) = some n := by
  interval_cases n <;> rfl

theorem parseByte_byteHex (b : Nat) (h : b < 256) (rest : List Char) :
    parseByte (byteHex b ++ rest) = some (b, rest) := by
  have h1 : hexVal (hexDigit (b / 16)) = some (b / 16) :=
    hexVal_hexDigit _ (by omega)
  have h2 : hexVal (hexDigit (b % 16)) = some (b % 16) :=
    hexVal_hexDigit _ (by omega)
  have hb : b / 16 * 16 + b % 16 = b := by omega
  simp only [byteHex, List.cons_append, List.nil_append, parseByte, h1, h2, hb]

theorem bytesHex_cons (b : Nat) (bs : List Nat) :
    bytesHex (b :: bs) = byteHex b ++ bytesHex bs := by
  simp [bytesHex]

theorem parseBytes_bytesHex (bs : List Nat) (h : ∀ b ∈ bs, b < 256)
    (rest : List Char) :
    parseBytes bs.length (bytesHex bs ++ rest) = some (bs, rest) := by
  induction bs with
  | nil => rfl
  | cons b bs ih =>
    have hb : b < 256 := h b (by simp)
    have hrec := ih (fun x hx => h x (by simp [hx])) 
    rw [bytesHex_cons, List.append_assoc]
    simp only [List.length_cons, parseBytes, parseByte_byteHex b hb, hrec]

theorem parseBytes_bytesHex_of_len (n : Nat) (bs : List Nat)
    (hn : bs.length = n) (h : ∀ b ∈ bs, b < 256) (rest : List Char) :
    parseBytes n (bytesHex bs ++ rest) = some (bs, rest) := by
  subst hn
  exact parseBytes_bytesHex bs h rest

theorem expectDash_cons (cs : List Char) : expectDash ('-' :: cs) = some cs :=
  rfl

theorem uuid_parse_groups (u : Uuid) (g1 g2 g3 g4 g5 : List Nat)
    (hu : u.val = g1 ++ g2 ++ g3 ++ g4 ++ g5)
    (h1 : g1.length = 4) (h2 : g2.length = 2) (h3 : g3.length = 2)
    (h4 : g4.length = 2) (h5 : g5.length = 6) :
    Uuid.parse (bytesHex g1 ++ ('-' :: (bytesHex g2 ++ ('-' :: (bytesHex g3
        ++ ('-' :: (bytesHex g4 ++ ('-' :: bytesHex g5)))))))) = some u := by
  have hlt : ∀ b ∈ g1 ++ g2 ++ g3 ++ g4 ++ g5, b < 256 := hu ▸ u.2.2
  have hlen : (g1 ++ g2 ++ g3 ++ g4 ++ g5).length = 16 := hu ▸ u.2.1
  have l1 : ∀ b ∈ g1, b < 256 := fun b hb => hlt b (by simp [hb])
  have l2 : ∀ b ∈ g2, b < 256 := fun b hb => hlt b (by simp [hb])
  have l3 : ∀ b ∈ g3, b < 256 := fun b hb => hlt b (by simp [hb])
  have l4 : ∀ b ∈ g4, b < 256 := fun b hb => hlt b (by simp [hb])
  have l5 : ∀ b ∈ g5, b < 256 := fun b hb => hlt b (by simp [hb])
  have p5eq : parseBytes 6 (bytesHex g5) = some (g5, []) := by
    have := parseBytes_bytesHex_of_len 6 g5 h5 l5 []
    rwa [List.append_nil] at this
  unfold Uuid.parse
  rw [parseBytes_bytesHex_of_len 4 g1 h1 l1]
  simp only [Option.some_bind, expectDash_cons,
    parseBytes_bytesHex_of_len 2 g2 h2 l2, parseBytes_bytesHex_of_len 2 g3 h3 l3,
    parseBytes_bytesHex_of_len 2 g4 h4 l4, p5eq]
  simp only [if_true]
  rw [dif_pos ⟨hlen, hlt⟩]
  exact congrArg some (Subtype.ext hu.symm)

theorem uuid_parse_toChars (u : Uuid) : Uuid.parse (Uuid.toChars u) = some u := by
  have hd : u.val.length = 16 := u.2.1
  have hu : u.val = u.val.take 4 ++ (u.val.drop 4).take 2
      ++ ((u.val.drop 4).drop 2).take 2
      ++ (((u.val.drop 4).drop 2).drop 2).take 2
      ++ (((u.val.drop 4).drop 2).drop 2).drop 2 := by
    rw [List.append_assoc, List.append_assoc, List.append_assoc]
    conv_rhs => rw [List.take_append_drop, List.take_append_drop,
      List.take_append_drop, List.take_append_drop]
  have h1 : (u.val.take 4).length = 4 := by
    simp [List.length_take, hd]
  have h2 : ((u.val.drop 4).take 2).length = 2 := by
    simp [List.length_take, List.length_drop, hd]
  have h3 : (((u.val.drop 4).drop 2).take 2).length = 2 := by
    simp [List.length_take, List.length_drop, hd]
  have h4 : ((((u.val.drop 4).drop 2).drop 2).take 2).length = 2 := by
    simp [List.length_take, List.length_drop, hd]
  have h5 : ((((u.val.drop 4).drop 2).drop 2).drop 2).length = 6 := by
    simp [List.length_drop, hd]
  exact uuid_parse_groups u _ _ _ _ _ hu h1 h2 h3 h4 h5

/-- Claim C10: converting a binary UUID to an Astarte binary blob and back
yields the same UUID, and the cross-type equality between the converted value
and the UUID holds; likewise for a string UUID via the dashed string form;
converting any Astarte value of a different kind fails with a conversion
error. -/
theorem uuid_conversions_spec (u : Uuid) :
    BinUuid.tryFrom (AstarteData.ofBinUuid ⟨u⟩) = .ok ⟨u⟩
    ∧ AstarteData.eqBinUuid (AstarteData.ofBinUuid ⟨u⟩) ⟨u⟩ = true
    ∧ StrUuid.tryFrom (AstarteData.ofStrUuid ⟨u⟩) = .ok ⟨u⟩
    ∧ AstarteData.eqStrUuid (AstarteData.ofStrUuid ⟨u⟩) ⟨u⟩ = true
    ∧ (∀ d : AstarteData, (∀ bs, d ≠ .binaryblob bs) →
        ∃ e, BinUuid.tryFrom d = .error e)
    ∧ (∀ d : AstarteData, (∀ cs, d ≠ .string cs) →
        ∃ e, StrUuid.tryFrom d = .error e) := by
  refine ⟨?_, ?_, ?_, ?_, ?_, ?_⟩
  · show BinUuid.tryFrom (.binaryblob u.val) = .ok ⟨u⟩
    simp only [BinUuid.tryFrom]
    rw [dif_pos u.2]
    rfl
  · show (u.val == u.val) = true
    simp
  · show StrUuid.tryFrom (.string (Uuid.toChars u)) = .ok ⟨u⟩
    simp only [StrUuid.tryFrom, uuid_parse_toChars u]
  · show (match Uuid.parse (Uuid.toChars u) with
      | some v => v == u
      | none => false) = true
    rw [uuid_parse_toChars u]
    simp
  · intro d hd
    cases d <;> first
      | exact absurd rfl (hd _)
      | exact ⟨_, rfl⟩
  · intro d hd
    cases d <;> first
      | exact absurd rfl (hd _)
      | exact ⟨_, rfl⟩

/-- Witness for claim C10 at a concrete input: the all-zero UUID round-trips
through the string form, and an integer value is rejected as a binary
UUID. -/
theorem uuid_conversions_spec_witness :
    StrUuid.tryFrom (AstarteData.ofStrUuid ⟨exampleUuid⟩) = .ok ⟨exampleUuid⟩
      ∧ ∃ e, BinUuid.tryFrom (AstarteData.integer 3) = .error e :=
  ⟨(uuid_conversions_spec exampleUuid).2.2.1,
   (uuid_conversions_spec exampleUuid).2.2.2.2.1 (AstarteData.integer 3)
     (fun _ h => AstarteData.noConfusion h)⟩
